import Mathlib

/-!
Shallow embedding of `src/retsu/tracking.py` (the retsu task/step tracking
subsystem) and verification of its specification claims.

The backend is Redis, used only through hash operations (`hget`, `hgetall`,
`hset` on a single field, `hset` with a mapping).  We model the store as a
function from record keys to field maps.  Redis `HSET` sets the given fields
of a hash, overwriting previous values of those fields and leaving all other
fields of the record untouched; it never deletes fields that are not named.

Byte strings stored in Redis arise in this code in two ways: UTF-8 encodings
of Python strings (statuses, timestamps) and `pickle.dumps` payloads
(results).  We model bytes as the disjoint sum of the two, and `pickle` as a
free injective encoding of Python values: `pickle.loads (pickle.dumps v) = v`
is the serialization library's round-trip contract, which the spec treats
abstractly as an "opaque byte encoding".  `pickle.dumps` never returns the
empty byte string, so a pickled payload is always truthy in Python.

`datetime.now().isoformat()` is modelled by passing the produced timestamp
string as an explicit argument to each operation that calls it.
-/

namespace Retsu

/-- Model of the Python values that flow through results in this code
(ints, strings, lists, string-keyed dicts, None). -/
inductive PyObj where
  | int : Int → PyObj
  | str : String → PyObj
  | none : PyObj
  | list : List PyObj → PyObj
  | dict : List (String × PyObj) → PyObj

/-- A byte string stored in Redis: either the UTF-8 encoding of a Python
string or a `pickle.dumps` payload. -/
inductive PyBytes where
  | utf8 : String → PyBytes
  | pickled : PyObj → PyBytes

/-- A Python value passed to `client.hset` as a field value in this code:
a `str` (stored as its UTF-8 bytes) or a `bytes` object (stored as is). -/
inductive RVal where
  | str : String → RVal
  | bytes : PyBytes → RVal

/-- How redis-py encodes an `hset` value argument to the bytes it stores. -/
def RVal.encode : RVal → PyBytes
  | .str s => .utf8 s
  | .bytes b => b

/-- Python's `value in ["started", "completed"]`: equality of an arbitrary
value with either status string.  A `bytes` value is never equal to a
`str` in Python. -/
def RVal.isStepStatus : RVal → Bool
  | .str s => s == "started" || s == "completed"
  | .bytes _ => false

/-- `pickle.dumps`. -/
def pickleDumps (o : PyObj) : PyBytes := .pickled o

/-- `pickle.loads`: inverts `pickle.dumps`; on bytes that are not a pickle
payload it raises, modelled as `none`. -/
def pickleLoads : PyBytes → Option PyObj
  | .pickled o => some o
  | .utf8 _ => none

/-- Python truthiness of a `bytes` object: only the empty byte string is
falsy.  A pickle payload is never empty. -/
def bytesTruthy : PyBytes → Bool
  | .utf8 s => !s.isEmpty
  | .pickled _ => true

/-- The Redis database: record key → field → stored bytes (or absent). -/
def Store : Type := String → String → Option PyBytes

/-- The empty database. -/
def emptyStore : Store := fun _ _ => Option.none

/-- `client.hset(key, field, value)`: set one field of one hash record. -/
def hsetField (st : Store) (key field : String) (v : PyBytes) : Store :=
  fun k f => if k = key then (if f = field then some v else st k f) else st k f

/-- `client.hset(key, mapping=m)`: set each field of `m` in order (Python
dict iteration order); fields of the record not named in `m` are untouched. -/
def hsetMapping (st : Store) (key : String) (m : List (String × RVal)) : Store :=
  m.foldl (fun acc p => hsetField acc key p.1 p.2.encode) st

/-- The task record key `task:{task_id}:metadata`. -/
def taskKey (taskId : String) : String :=
  "task:" ++ taskId ++ ":metadata"

/-- The step record key `task:{task_id}:step:{step_id}`. -/
def stepKey (taskId stepId : String) : String :=
  "task:" ++ taskId ++ ":step:" ++ stepId

/-- The exceptions this subsystem can raise. -/
inductive TrackErr where
  | notReady (status : String)
  | timeout (status : String)
  | invalidStatus
  | statusAbsent
  | unpickle

namespace TaskMetadataManager

/-- `TaskMetadataManager.get_all`. -/
def get_all (st : Store) (taskId : String) : String → Option PyBytes :=
  fun f => st (taskKey taskId) f

/-- `TaskMetadataManager.get`: `hget` of one attribute. -/
def get (st : Store) (taskId attr : String) : Option PyBytes :=
  st (taskKey taskId) attr

/-- `TaskMetadataManager.create`: one `hset` with the caller's mapping. -/
def create (st : Store) (taskId : String) (metadata : List (String × RVal)) :
    Store :=
  hsetMapping st (taskKey taskId) metadata

/-- `TaskMetadataManager.update`: `hset` the attribute, then `hset`
`updated_at` to `datetime.now().isoformat()` (passed in as `now`). -/
def update (st : Store) (taskId attr : String) (v : RVal) (now : String) :
    Store :=
  hsetField (hsetField st (taskKey taskId) attr v.encode)
    (taskKey taskId) "updated_at" (.utf8 now)

end TaskMetadataManager

namespace StepMetadataManager

/-- `StepMetadataManager.get_all`. -/
def get_all (st : Store) (taskId stepId : String) : String → Option PyBytes :=
  fun f => st (stepKey taskId stepId) f

/-- `StepMetadataManager.get`. -/
def get (st : Store) (taskId stepId attr : String) : Option PyBytes :=
  st (stepKey taskId stepId) attr

/-- `StepMetadataManager.create`: one `hset` with the caller's mapping. -/
def create (st : Store) (taskId stepId : String)
    (metadata : List (String × RVal)) : Store :=
  hsetMapping st (stepKey taskId stepId) metadata

/-- `StepMetadataManager.update`: raises unless
`attribute == "status" ⇒ value ∈ {"started", "completed"}` (the raise
happens before any write, so an error leaves the store untouched);
otherwise `hset` the attribute and then `updated_at = now`. -/
def update (st : Store) (taskId stepId attr : String) (v : RVal)
    (now : String) : Except TrackErr Store :=
  if attr = "status" ∧ v.isStepStatus = false then
    .error .invalidStatus
  else
    .ok (hsetField (hsetField st (stepKey taskId stepId) attr v.encode)
      (stepKey taskId stepId) "updated_at" (.utf8 now))

end StepMetadataManager

namespace ResultTaskManager

/-- `ResultTaskManager.status`: `hget` the `status` field and decode it as
UTF-8.  `hget` of an absent field returns Python `None`, and
`None.decode("utf8")` raises `AttributeError`; decoding a pickle payload as
text is likewise modelled as a failure. -/
def status (st : Store) (taskId : String) : Except TrackErr String :=
  match TaskMetadataManager.get st taskId "status" with
  | Option.none => .error .statusAbsent
  | some (.utf8 s) => .ok s
  | some (.pickled _) => .error .statusAbsent

/-- What `ResultTaskManager.get` returns on its success path: the unpickled
object when the `result` field was truthy, or the raw absent/empty value
returned as is. -/
inductive GetOut where
  | obj : PyObj → GetOut
  | raw : Option PyBytes → GetOut

/-- The observable outcome of one `ResultTaskManager.get` call: the value
returned or exception raised, the number of backend reads (`hget` calls)
performed, and the number of `sleep(0.5)` calls performed.  `get` calls no
write operation, which is reflected in its type: it does not produce a
store. -/
structure GetOutcome where
  result : Except TrackErr GetOut
  reads : Nat
  sleeps : Nat

/-- The tail of `get`: read the `result` field and return
`pickle.loads(result) if result else result`.  `i` is the index of this
`hget` in the sequence of backend reads, `sleeps` the sleeps so far. -/
def readResult (obs : Nat → Store) (taskId : String) (i sleeps : Nat) :
    GetOutcome :=
  match TaskMetadataManager.get (obs i) taskId "result" with
  | Option.none => ⟨.ok (.raw Option.none), i + 1, sleeps⟩
  | some b =>
    if bytesTruthy b then
      match pickleLoads b with
      | some o => ⟨.ok (.obj o), i + 1, sleeps⟩
      | Option.none => ⟨.error .unpickle, i + 1, sleeps⟩
    else ⟨.ok (.raw (some b)), i + 1, sleeps⟩

/-- The polling loop of `get` when a timeout is set.  The Python loop keeps a
float countdown starting at `float(timeout)` and subtracts `0.5` each
iteration; since `timeout` is an `int`, that arithmetic is exact, and we
carry the countdown in half-second units: `c` is the countdown times 2.
Each iteration reads the status (one `hget`); if it is `"completed"` the
loop exits to the result read; otherwise it sleeps `0.5`, decrements, and
when the countdown has reached `≤ 0` reads the status once more and raises
the timeout exception carrying it.  `obs i` is the store snapshot seen by
the `i`-th backend read, so concurrent writers are allowed. -/
def getLoop (obs : Nat → Store) (taskId : String) (i sleeps : Nat) (c : Int) :
    GetOutcome :=
  match ResultTaskManager.status (obs i) taskId with
  | .error e => ⟨.error e, i + 1, sleeps⟩
  | .ok s =>
    if s = "completed" then readResult obs taskId (i + 1) sleeps
    else if c - 1 ≤ 0 then
      match ResultTaskManager.status (obs (i + 1)) taskId with
      | .error e => ⟨.error e, i + 2, sleeps + 1⟩
      | .ok s2 => ⟨.error (.timeout s2), i + 2, sleeps + 1⟩
    else getLoop obs taskId (i + 1) (sleeps + 1) (c - 1)
  termination_by c.toNat
  decreasing_by
    simp only [not_le] at *
    omega

/-- The branch of `get` taken when `timeout` is falsy (`None` or `0`): one
status check; if not `"completed"`, the status is read a second time for the
exception message and the not-ready exception raised; otherwise fall through
to the result read. -/
def getNoTimeout (obs : Nat → Store) (taskId : String) : GetOutcome :=
  match ResultTaskManager.status (obs 0) taskId with
  | .error e => ⟨.error e, 1, 0⟩
  | .ok s =>
    if s = "completed" then readResult obs taskId 1 0
    else
      match ResultTaskManager.status (obs 1) taskId with
      | .error e => ⟨.error e, 2, 0⟩
      | .ok s2 => ⟨.error (.notReady s2), 2, 0⟩

/-- Python truthiness of the `timeout : Optional[int]` argument: `None` and
`0` are falsy. -/
def timeoutTruthy : Option Int → Bool
  | Option.none => false
  | some t => t != 0

/-- `ResultTaskManager.get(task_id, timeout)`. -/
def get (obs : Nat → Store) (taskId : String) (timeout : Option Int) :
    GetOutcome :=
  if timeoutTruthy timeout then
    getLoop obs taskId 0 0 (2 * timeout.getD 0)
  else
    getNoTimeout obs taskId

/-- `ResultTaskManager.load`. -/
def load (st : Store) (taskId : String) : String → Option PyBytes :=
  TaskMetadataManager.get_all st taskId

/-- `ResultTaskManager.create`: delegates to the task metadata store. -/
def create (st : Store) (taskId : String) (metadata : List (String × RVal)) :
    Store :=
  TaskMetadataManager.create st taskId metadata

/-- `ResultTaskManager.save`: pickle the result and write it to the task's
`result` field via `update` (which also refreshes `updated_at`). -/
def save (st : Store) (taskId : String) (result : PyObj) (now : String) :
    Store :=
  TaskMetadataManager.update st taskId "result" (.bytes (pickleDumps result))
    now

end ResultTaskManager

/-- The observable outcome of one call to a function wrapped by
`track_step`: the final store, the step-store `update` calls the wrapper
made (attribute and value, in order), and the value returned or the
exception propagated.  `ε` is the type of exceptions the wrapped function
may raise; `Sum.inr` marks exceptions raised by the tracking code itself
(unreachable on these inputs, but kept for faithfulness of the `update`
calls). -/
structure StepCallOutcome (ε : Type) where
  store : Store
  calls : List (String × RVal)
  result : Except (ε ⊕ TrackErr) PyObj

/-- The `wrapper` closure produced by `track_step(task_metadata)` applied to
a step function.  `task_id` comes from the call's keyword arguments;
`step_id` is `kwargs.get("step_id", task_func.__name__)`, modelled by an
optional argument and the function's name.  The wrapped function itself is
modelled by the outcome of its call, `fres`: the value it returns or the
exception it raises.  The wrapper records `status=started`, runs the
function, records `status=completed`, then pickles the return value and
stores it under `result`; each record is a step-store `update` (which also
writes `updated_at`, with timestamps `now1`, `now2`, `now3`). -/
def trackStepWrapper {ε : Type} (st : Store) (taskId : String)
    (stepIdArg : Option String) (funcName : String)
    (fres : Except ε PyObj) (now1 now2 now3 : String) : StepCallOutcome ε :=
  let stepId := stepIdArg.getD funcName
  match StepMetadataManager.update st taskId stepId "status"
      (.str "started") now1 with
  | .error e => ⟨st, [("status", .str "started")], .error (.inr e)⟩
  | .ok st1 =>
    match fres with
    | .error e => ⟨st1, [("status", .str "started")], .error (.inl e)⟩
    | .ok v =>
      match StepMetadataManager.update st1 taskId stepId "status"
          (.str "completed") now2 with
      | .error e =>
        ⟨st1, [("status", .str "started"), ("status", .str "completed")],
          .error (.inr e)⟩
      | .ok st2 =>
        match StepMetadataManager.update st2 taskId stepId "result"
            (.bytes (pickleDumps v)) now3 with
        | .error e =>
          ⟨st2,
            [("status", .str "started"), ("status", .str "completed"),
              ("result", .bytes (pickleDumps v))],
            .error (.inr e)⟩
        | .ok st3 =>
          ⟨st3,
            [("status", .str "started"), ("status", .str "completed"),
              ("result", .bytes (pickleDumps v))],
            .ok v⟩

/-! ### Helper lemmas about the store model -/

theorem hsetField_same (st : Store) (key field : String) (v : PyBytes) :
    hsetField st key field v key field = some v := by
  simp [hsetField]

theorem hsetField_other_field (st : Store) (key field : String) (v : PyBytes)
    (f : String) (h : f ≠ field) :
    hsetField st key field v key f = st key f := by
  simp [hsetField, h]

theorem hsetField_other_key (st : Store) (key field : String) (v : PyBytes)
    (k f : String) (h : k ≠ key) :
    hsetField st key field v k f = st k f := by
  simp [hsetField, h]

/-- A multi-field `hset` leaves every field it does not name unchanged, at
every key. -/
theorem hsetMapping_not_mem (m : List (String × RVal)) (st : Store)
    (key k f : String) (h : f ∉ m.map Prod.fst) :
    hsetMapping st key m k f = st k f := by
  induction m generalizing st with
  | nil => rfl
  | cons p rest ih =>
    simp only [List.map_cons, List.mem_cons] at h
    push_neg at h
    show hsetMapping (hsetField st key p.1 p.2.encode) key rest k f = st k f
    rw [ih _ h.2]
    by_cases hk : k = key
    · subst hk
      exact hsetField_other_field _ _ _ _ _ h.1
    · exact hsetField_other_key _ _ _ _ _ _ hk

/-- A multi-field `hset` leaves every other record unchanged. -/
theorem hsetMapping_other_key (m : List (String × RVal)) (st : Store)
    (key k f : String) (h : k ≠ key) :
    hsetMapping st key m k f = st k f := by
  induction m generalizing st with
  | nil => rfl
  | cons p rest ih =>
    show hsetMapping (hsetField st key p.1 p.2.encode) key rest k f = st k f
    rw [ih, hsetField_other_key _ _ _ _ _ _ h]

/-- The field set last in the mapping wins, provided no later entry names
it again. -/
theorem hsetMapping_last (m₁ m₂ : List (String × RVal)) (st : Store)
    (key f : String) (v : RVal) (h : f ∉ m₂.map Prod.fst) :
    hsetMapping st key (m₁ ++ (f, v) :: m₂) key f = some v.encode := by
  have : hsetMapping st key (m₁ ++ (f, v) :: m₂) =
      hsetMapping (hsetField (hsetMapping st key m₁) key f v.encode) key m₂ := by
    simp [hsetMapping, List.foldl_append]
  rw [this, hsetMapping_not_mem _ _ _ _ _ h, hsetField_same]

/-- Distinct step ids of the same task map to distinct record keys. -/
theorem stepKey_inj (t a b : String) (h : stepKey t a = stepKey t b) :
    a = b := by
  have hd := congrArg String.data h
  simp only [stepKey, String.data_append] at hd
  exact String.ext (List.append_cancel_left hd)

/-- `value in ["started", "completed"]` is exactly equality with one of the
two status strings. -/
theorem isStepStatus_false_iff (v : RVal) :
    v.isStepStatus = false ↔ ¬(v = .str "started" ∨ v = .str "completed") := by
  cases v with
  | str s => simp [RVal.isStepStatus]
  | bytes b => simp [RVal.isStepStatus]

/-! ### Helper lemmas about `ResultTaskManager.get` -/

/-- The no-timeout branch on a not-yet-completed task: the deciding status
read observes `s0 ≠ "completed"`, the status is read once more for the
exception message, and the not-ready exception is raised carrying that
second observation; two backend reads, no sleep. -/
theorem getNoTimeout_not_completed (obs : Nat → Store) (t : String)
    (s0 s1 : String) (h0 : ResultTaskManager.status (obs 0) t = .ok s0)
    (hne : s0 ≠ "completed")
    (h1 : ResultTaskManager.status (obs 1) t = .ok s1) :
    ResultTaskManager.getNoTimeout obs t =
      ⟨.error (.notReady s1), 2, 0⟩ := by
  unfold ResultTaskManager.getNoTimeout
  rw [h0]
  simp only [if_neg hne, h1]

/-- The polling loop, when every status observation is defined and never
`"completed"`, runs down its half-second countdown `n` and raises the
timeout exception carrying the final status observation: starting from read
index `i` and sleep count `sl`, it performs `n` sleeps and `n + 1` status
reads. -/
theorem getLoop_never_completed (obs : Nat → Store) (t : String)
    (sf : Nat → String)
    (hst : ∀ i, ResultTaskManager.status (obs i) t = .ok (sf i))
    (hnc : ∀ i, sf i ≠ "completed") :
    ∀ n : Nat, 1 ≤ n → ∀ i sl : Nat,
      ResultTaskManager.getLoop obs t i sl (n : Int) =
        ⟨.error (.timeout (sf (i + n))), i + n + 1, sl + n⟩ := by
  intro n
  induction n with
  | zero => omega
  | succ k ih =>
    intro _ i sl
    rw [ResultTaskManager.getLoop.eq_def, hst i]
    simp only [if_neg (hnc i)]
    by_cases hk : k = 0
    · subst hk
      norm_num
      rw [hst (i + 1)]
    · have hcond : ¬((k + 1 : Nat) : Int) - 1 ≤ 0 := by push_cast; omega
      rw [if_neg hcond]
      have hcast : ((k + 1 : Nat) : Int) - 1 = ((k : Nat) : Int) := by
        push_cast; ring
      rw [hcast, ih (by omega) (i + 1) (sl + 1)]
      have h1 : i + 1 + k = i + (k + 1) := by omega
      have h3 : sl + 1 + k = sl + (k + 1) := by omega
      rw [h1, h3]

/-- A plain `get` (no timeout) is the no-timeout branch. -/
theorem get_none_eq (obs : Nat → Store) (t : String) :
    ResultTaskManager.get obs t Option.none =
      ResultTaskManager.getNoTimeout obs t := rfl

/-- The no-timeout branch on a completed task proceeds to the result read. -/
theorem getNoTimeout_completed (obs : Nat → Store) (t : String)
    (h : ResultTaskManager.status (obs 0) t = .ok "completed") :
    ResultTaskManager.getNoTimeout obs t =
      ResultTaskManager.readResult obs t 1 0 := by
  unfold ResultTaskManager.getNoTimeout
  rw [h]
  simp

/-! ### Claim theorems -/

/-- C4: the step store's `update(task_id, step_id, "status", v)` raises
`InvalidStatusError` exactly when `v` is neither `"started"` nor
`"completed"`; on that failure the raise happens before any write, so the
returned `Except` carries no store and the step record keeps every field it
had (status and `updated_at` included).  When `v` is a valid status — or the
attribute is not `"status"` at all — the update succeeds, writes the
attribute, and also writes `updated_at = now` as the second field of the
same logical update (when the attribute is itself `"updated_at"`, the second
write is to the same field and wins). -/
theorem step_update_status_validation (st : Store) (t s : String) (v : RVal)
    (now : String) :
    (StepMetadataManager.update st t s "status" v now =
        .error .invalidStatus ↔
      ¬(v = .str "started" ∨ v = .str "completed")) ∧
    (∀ attr : String,
      (v = .str "started" ∨ v = .str "completed") ∨ attr ≠ "status" →
      ∃ st' : Store,
        StepMetadataManager.update st t s attr v now = .ok st' ∧
        st' (stepKey t s) "updated_at" = some (.utf8 now) ∧
        (attr ≠ "updated_at" → st' (stepKey t s) attr = some v.encode) ∧
        (∀ f : String, f ≠ attr → f ≠ "updated_at" →
          st' (stepKey t s) f = st (stepKey t s) f)) := by
  constructor
  · rw [← isStepStatus_false_iff]
    unfold StepMetadataManager.update
    rcases h : v.isStepStatus with _ | _
    · simp
    · simp
  · intro attr hok
    unfold StepMetadataManager.update
    have hcond : ¬(attr = "status" ∧ v.isStepStatus = false) := by
      rcases hok with hv | hattr
      · intro ⟨_, hfalse⟩
        exact (isStepStatus_false_iff v).mp hfalse hv
      · intro ⟨ha, _⟩
        exact hattr ha
    rw [if_neg hcond]
    refine ⟨_, rfl, hsetField_same _ _ _ _, ?_, ?_⟩
    · intro hne
      rw [hsetField_other_field _ _ _ _ _ hne, hsetField_same]
    · intro f hfa hfu
      rw [hsetField_other_field _ _ _ _ _ hfu,
        hsetField_other_field _ _ _ _ _ hfa]

/-- Witness for C4 at concrete inputs: updating `status` to `"failed"` is
rejected, and updating `status` to `"completed"` on the empty store succeeds
and writes both fields. -/
theorem step_update_status_validation_witness :
    (StepMetadataManager.update emptyStore "t1" "s1" "status"
        (.str "failed") "T0" = .error .invalidStatus) ∧
    ∃ st' : Store,
      StepMetadataManager.update emptyStore "t1" "s1" "status"
        (.str "completed") "T0" = .ok st' ∧
      st' (stepKey "t1" "s1") "updated_at" = some (.utf8 "T0") ∧
      st' (stepKey "t1" "s1") "status" = some (.utf8 "completed") := by
  have h1 := step_update_status_validation emptyStore "t1" "s1"
    (.str "failed") "T0"
  have h2 := step_update_status_validation emptyStore "t1" "s1"
    (.str "completed") "T0"
  refine ⟨h1.1.mpr (by simp), ?_⟩
  obtain ⟨st', hok, hua, hattr, _⟩ := h2.2 "status" (Or.inl (Or.inr rfl))
  exact ⟨st', hok, hua, hattr (by simp)⟩

/-- C5: calling the `track_step` wrapper of a step function that returns `v`
makes exactly the recording calls `status=started`, then (after the
function runs) `status=completed`, then `result = pickle.dumps v`, in that
order; it returns `v` unchanged to the caller; and afterwards the step
record (keyed by the supplied `step_id`, defaulting to the function's name)
holds status `"completed"` and a stored result that decodes back to `v`. -/
theorem track_step_success {ε : Type} (st : Store) (t : String)
    (sid : Option String) (fname : String) (v : PyObj)
    (n1 n2 n3 : String) :
    (trackStepWrapper (ε := ε) st t sid fname (Except.ok v) n1 n2
          n3).result = .ok v ∧
    (trackStepWrapper (ε := ε) st t sid fname (Except.ok v) n1 n2
          n3).calls =
        [("status", .str "started"), ("status", .str "completed"),
          ("result", .bytes (pickleDumps v))] ∧
    (trackStepWrapper (ε := ε) st t sid fname (Except.ok v) n1 n2
          n3).store (stepKey t (sid.getD fname)) "status" =
        some (.utf8 "completed") ∧
    ((trackStepWrapper (ε := ε) st t sid fname (Except.ok v) n1 n2
          n3).store (stepKey t (sid.getD fname)) "result").bind pickleLoads =
        some v := by
  unfold trackStepWrapper StepMetadataManager.update
  simp [RVal.isStepStatus, RVal.encode, pickleDumps, pickleLoads, hsetField]

/-- C6: when the wrapped step function raises, the `track_step` wrapper
propagates that same exception unchanged to its caller; the only recording
call it made is `status=started`, so no `"completed"` status and no result
are written, and the step record is left with status `"started"`. -/
theorem track_step_error_propagates {ε : Type} (st : Store) (t : String)
    (sid : Option String) (fname : String) (e : ε) (n1 n2 n3 : String) :
    (trackStepWrapper st t sid fname (Except.error e) n1 n2 n3).result =
        .error (.inl e) ∧
    (trackStepWrapper st t sid fname (Except.error e) n1 n2 n3).calls =
        [("status", .str "started")] ∧
    (trackStepWrapper st t sid fname (Except.error e) n1 n2
          n3).store (stepKey t (sid.getD fname)) "status" =
        some (.utf8 "started") ∧
    (trackStepWrapper st t sid fname (Except.error e) n1 n2
          n3).store (stepKey t (sid.getD fname)) "result" =
        st (stepKey t (sid.getD fname)) "result" := by
  unfold trackStepWrapper StepMetadataManager.update
  simp [RVal.isStepStatus, RVal.encode, hsetField]

/-- A concrete pre-existing step record used to exhibit the merge semantics
of `create`: the record for `("t1", "s1")` already holds a field
`"old_field"`. -/
def preexistingStepStore : Store :=
  fun k f =>
    if k = stepKey "t1" "s1" ∧ f = "old_field" then some (.utf8 "v0")
    else Option.none

/-- Counterexample to C7: `create` is a Redis `HSET` with a mapping, which
sets the named fields and leaves the rest of the record alone.  After
`create("t1", "s1", {"b": "new"})` over a record that already held
`"old_field"`, that old field is still present, so `create` does not
overwrite the whole record. -/
theorem create_no_merge_counterexample :
    StepMetadataManager.create preexistingStepStore "t1" "s1"
        [("b", .str "new")] (stepKey "t1" "s1") "old_field" =
      some (.utf8 "v0") := by
  rfl

/-- C7 (amended): `create` sets exactly the fields named in its mapping —
each named field ends up holding the (last) value the mapping gives it —
and every field of the record not named in the mapping keeps its previous
value (merge, not overwrite).  This holds for both the step store and the
task store. -/
theorem create_sets_exactly_named_fields (st : Store) (t s : String) :
    (∀ (m : List (String × RVal)) (f : String), f ∉ m.map Prod.fst →
      StepMetadataManager.create st t s m (stepKey t s) f =
        st (stepKey t s) f) ∧
    (∀ (m₁ m₂ : List (String × RVal)) (f : String) (v : RVal),
      f ∉ m₂.map Prod.fst →
      StepMetadataManager.create st t s (m₁ ++ (f, v) :: m₂)
          (stepKey t s) f = some v.encode) ∧
    (∀ (m : List (String × RVal)) (f : String), f ∉ m.map Prod.fst →
      TaskMetadataManager.create st t m (taskKey t) f = st (taskKey t) f) ∧
    (∀ (m₁ m₂ : List (String × RVal)) (f : String) (v : RVal),
      f ∉ m₂.map Prod.fst →
      TaskMetadataManager.create st t (m₁ ++ (f, v) :: m₂)
          (taskKey t) f = some v.encode) := by
  refine ⟨fun m f h => ?_, fun m₁ m₂ f v h => ?_, fun m f h => ?_,
    fun m₁ m₂ f v h => ?_⟩
  · exact hsetMapping_not_mem m st _ _ _ h
  · exact hsetMapping_last m₁ m₂ st _ _ _ h
  · exact hsetMapping_not_mem m st _ _ _ h
  · exact hsetMapping_last m₁ m₂ st _ _ _ h

/-- Witness for the amended C7 at concrete inputs: over the record that
already holds `"old_field"`, `create` with mapping `{"b": "new"}` leaves
`"old_field"` at its old value and sets `"b"`. -/
theorem create_sets_exactly_named_fields_witness :
    StepMetadataManager.create preexistingStepStore "t1" "s1"
        [("b", .str "new")] (stepKey "t1" "s1") "old_field" =
      preexistingStepStore (stepKey "t1" "s1") "old_field" ∧
    StepMetadataManager.create preexistingStepStore "t1" "s1"
        [("b", .str "new")] (stepKey "t1" "s1") "b" =
      some (RVal.str "new").encode := by
  have h := create_sets_exactly_named_fields preexistingStepStore "t1" "s1"
  exact ⟨h.1 [("b", .str "new")] "old_field" (by simp),
    h.2.1 [] [] "b" (.str "new") (by simp)⟩

/-- Counterexample to C8: `TaskMetadataManager.create` performs a single
`hset` with exactly the caller's mapping and never touches `updated_at`:
creating a task record with `{"status": "started"}` over the empty store
leaves `updated_at` absent, so not every mutating operation refreshes it. -/
theorem create_no_updated_at_counterexample :
    TaskMetadataManager.create emptyStore "t1"
        [("status", .str "started")] (taskKey "t1") "updated_at" =
      Option.none := by
  rfl

/-- C8 (amended): the task store's `update` and the facade's `save` refresh
`updated_at` to the current time in the same logical update; `create`,
however, writes exactly the caller-supplied fields, so it leaves
`updated_at` unchanged whenever the supplied mapping does not itself name
it. -/
theorem update_save_refresh_updated_at (st : Store) (t attr : String)
    (v : RVal) (now : String) (r : PyObj) (m : List (String × RVal)) :
    TaskMetadataManager.update st t attr v now (taskKey t) "updated_at" =
        some (.utf8 now) ∧
    ResultTaskManager.save st t r now (taskKey t) "updated_at" =
        some (.utf8 now) ∧
    ("updated_at" ∉ m.map Prod.fst →
      TaskMetadataManager.create st t m (taskKey t) "updated_at" =
        st (taskKey t) "updated_at") := by
  refine ⟨hsetField_same _ _ _ _, hsetField_same _ _ _ _, fun h => ?_⟩
  exact hsetMapping_not_mem m st _ _ _ h

/-- Witness for the amended C8 at concrete inputs. -/
theorem update_save_refresh_updated_at_witness :
    TaskMetadataManager.update emptyStore "t1" "status" (.str "done") "T1"
        (taskKey "t1") "updated_at" = some (.utf8 "T1") ∧
    ResultTaskManager.save emptyStore "t1" (.int 7) "T2"
        (taskKey "t1") "updated_at" = some (.utf8 "T2") ∧
    TaskMetadataManager.create emptyStore "t1" [("status", .str "started")]
        (taskKey "t1") "updated_at" = emptyStore (taskKey "t1") "updated_at" := by
  have h := update_save_refresh_updated_at emptyStore "t1" "status"
    (.str "done") "T1" (.int 7) [("status", .str "started")]
  have h2 := update_save_refresh_updated_at emptyStore "t1" "status"
    (.str "done") "T1" (.int 7) [("status", .str "started")]
  exact ⟨h.1,
    (update_save_refresh_updated_at emptyStore "t1" "status" (.str "done")
      "T2" (.int 7) []).2.1,
    h2.2.2 (by simp)⟩

/-- C9: any step-store operation addressed to `(task_id, B)` leaves every
field of the record for `(task_id, A)` unchanged when `A ≠ B`: the two step
ids map to distinct record keys, `create` and `update` write only to their
own key, and `get`/`get_all` are pure reads (they take the store and return
values without producing a store at all). -/
theorem step_ops_frame (st : Store) (t a b : String) (h : a ≠ b)
    (m : List (String × RVal)) (attr : String) (v : RVal) (now : String) :
    (∀ f : String,
      StepMetadataManager.get (StepMetadataManager.create st t b m) t a f =
        StepMetadataManager.get st t a f) ∧
    (∀ st' : Store, StepMetadataManager.update st t b attr v now = .ok st' →
      ∀ f : String,
        StepMetadataManager.get st' t a f =
          StepMetadataManager.get st t a f) := by
  have hk : stepKey t a ≠ stepKey t b := fun hEq => h (stepKey_inj t a b hEq)
  constructor
  · intro f
    exact hsetMapping_other_key m st _ _ _ hk
  · intro st' hok f
    unfold StepMetadataManager.update at hok
    by_cases hc : attr = "status" ∧ v.isStepStatus = false
    · rw [if_pos hc] at hok
      cases hok
    · rw [if_neg hc] at hok
      cases hok
      show hsetField _ _ _ _ (stepKey t a) f = _
      rw [hsetField_other_key _ _ _ _ _ _ hk,
        hsetField_other_key _ _ _ _ _ _ hk]
      rfl

/-- Witness for C9 at concrete inputs: a `create` and an `update` addressed
to step `"s2"` leave the `"status"` field of step `"s1"` unchanged. -/
theorem step_ops_frame_witness :
    StepMetadataManager.get
        (StepMetadataManager.create preexistingStepStore "t1" "s2"
          [("status", .str "started")]) "t1" "s1" "old_field" =
      StepMetadataManager.get preexistingStepStore "t1" "s1" "old_field" := by
  exact (step_ops_frame preexistingStepStore "t1" "s1" "s2" (by decide)
    [("status", .str "started")] "status" (.str "started") "T0").1 "old_field"

/-- A concrete store whose task `"t1"` has status `"started"` (and nothing
else): a task that is not completed. -/
def startedTaskStore : Store :=
  fun k f =>
    if k = taskKey "t1" ∧ f = "status" then some (.utf8 "started")
    else Option.none

/-- A concrete store whose task `"t1"` is `"completed"` but has no `result`
field at all. -/
def completedNoResultStore : Store :=
  fun k f =>
    if k = taskKey "t1" ∧ f = "status" then some (.utf8 "completed")
    else Option.none

/-- A concrete store whose task `"t1"` is `"completed"` and whose `result`
field holds the empty byte string. -/
def completedEmptyResultStore : Store :=
  fun k f =>
    if k = taskKey "t1" ∧ f = "status" then some (.utf8 "completed")
    else if k = taskKey "t1" ∧ f = "result" then some (.utf8 "")
    else Option.none

/-- C1: after `create(task_id, metadata)`, `save(task_id, r)` and an update
setting the task's status to `"completed"`, a plain `get(task_id)` returns
exactly `r`: `save` pickles `r` into the `result` field and `get` unpickles
it, and the two encodings are mutually inverse.  And when the task is
completed but its `result` field is absent (or holds the empty byte
string), `get` returns that absent/empty value as is, with no decoding
attempted. -/
theorem get_returns_saved_result (st : Store) (t : String)
    (m : List (String × RVal)) (r : PyObj) (n1 n2 : String) :
    ((ResultTaskManager.get
        (fun _ => TaskMetadataManager.update
          (ResultTaskManager.save (ResultTaskManager.create st t m) t r n1)
          t "status" (.str "completed") n2)
        t Option.none).result = .ok (.obj r)) ∧
    (∀ stc : Store, ResultTaskManager.status stc t = .ok "completed" →
      (stc (taskKey t) "result" = Option.none →
        (ResultTaskManager.get (fun _ => stc) t Option.none).result =
          .ok (.raw Option.none)) ∧
      (stc (taskKey t) "result" = some (.utf8 "") →
        (ResultTaskManager.get (fun _ => stc) t Option.none).result =
          .ok (.raw (some (.utf8 ""))))) := by
  constructor
  · have hs : TaskMetadataManager.update
        (ResultTaskManager.save (ResultTaskManager.create st t m) t r n1)
        t "status" (.str "completed") n2 (taskKey t) "status" =
        some (.utf8 "completed") := by
      unfold TaskMetadataManager.update
      rw [hsetField_other_field _ _ _ _ _ (by simp), hsetField_same]
      rfl
    have hr : TaskMetadataManager.update
        (ResultTaskManager.save (ResultTaskManager.create st t m) t r n1)
        t "status" (.str "completed") n2 (taskKey t) "result" =
        some (.pickled r) := by
      unfold ResultTaskManager.save TaskMetadataManager.update
      rw [hsetField_other_field _ _ _ _ _ (by simp),
        hsetField_other_field _ _ _ _ _ (by simp),
        hsetField_other_field _ _ _ _ _ (by simp), hsetField_same]
      rfl
    have hstat : ResultTaskManager.status
        (TaskMetadataManager.update
          (ResultTaskManager.save (ResultTaskManager.create st t m) t r n1)
          t "status" (.str "completed") n2) t = .ok "completed" := by
      unfold ResultTaskManager.status TaskMetadataManager.get
      rw [hs]
    rw [get_none_eq, getNoTimeout_completed _ _ hstat]
    simp only [ResultTaskManager.readResult, TaskMetadataManager.get, hr]
    simp [bytesTruthy, pickleLoads]
  · intro stc hstatus
    constructor
    · intro hres
      rw [get_none_eq, getNoTimeout_completed _ _ hstatus]
      simp only [ResultTaskManager.readResult, TaskMetadataManager.get, hres]
    · intro hres
      rw [get_none_eq, getNoTimeout_completed _ _ hstatus]
      simp only [ResultTaskManager.readResult, TaskMetadataManager.get, hres]
      rfl

/-- Witness for C1 at concrete inputs: the end-to-end round trip for the
integer `42`, and the as-is returns for an absent and for an empty `result`
field. -/
theorem get_returns_saved_result_witness :
    ((ResultTaskManager.get
        (fun _ => TaskMetadataManager.update
          (ResultTaskManager.save
            (ResultTaskManager.create emptyStore "t1"
              [("status", .str "started")])
            "t1" (.int 42) "T1")
          "t1" "status" (.str "completed") "T2")
        "t1" Option.none).result = .ok (.obj (.int 42))) ∧
    ((ResultTaskManager.get (fun _ => completedNoResultStore) "t1"
        Option.none).result = .ok (.raw Option.none)) ∧
    ((ResultTaskManager.get (fun _ => completedEmptyResultStore) "t1"
        Option.none).result = .ok (.raw (some (.utf8 "")))) := by
  refine ⟨(get_returns_saved_result emptyStore "t1"
      [("status", .str "started")] (.int 42) "T1" "T2").1, ?_, ?_⟩
  · exact ((get_returns_saved_result emptyStore "t1" [] (.int 0) "" "").2
      completedNoResultStore rfl).1 rfl
  · exact ((get_returns_saved_result emptyStore "t1" [] (.int 0) "" "").2
      completedEmptyResultStore rfl).2 rfl

/-- Counterexample to C2: on a task whose status is `"started"`, `get` with
no timeout performs two backend reads of the status field — the deciding
check and a second read used to build the exception message — not a single
status check. -/
theorem get_no_timeout_single_check_counterexample :
    (ResultTaskManager.get (fun _ => startedTaskStore) "t1"
        Option.none).reads = 2 ∧
    (ResultTaskManager.get (fun _ => startedTaskStore) "t1"
        Option.none).reads ≠ 1 :=
  ⟨rfl, by decide⟩

/-- C2 (amended): for a task whose status is not `"completed"`, `get` with
`timeout` unset fails immediately with the not-ready error and performs no
sleep and no backend write; it performs two status checks, not one — the
deciding check and a second read whose observation is the status carried by
the error. -/
theorem get_no_timeout_not_ready (obs : Nat → Store) (t s0 s1 : String)
    (h0 : ResultTaskManager.status (obs 0) t = .ok s0)
    (hne : s0 ≠ "completed")
    (h1 : ResultTaskManager.status (obs 1) t = .ok s1) :
    ResultTaskManager.get obs t Option.none =
      ⟨.error (.notReady s1), 2, 0⟩ :=
  getNoTimeout_not_completed obs t s0 s1 h0 hne h1

/-- Witness for the amended C2 at concrete inputs. -/
theorem get_no_timeout_not_ready_witness :
    ResultTaskManager.get (fun _ => startedTaskStore) "t1" Option.none =
      ⟨.error (.notReady "started"), 2, 0⟩ :=
  get_no_timeout_not_ready (fun _ => startedTaskStore) "t1" "started"
    "started" rfl (by decide) rfl

/-- C3: for a task whose observed status is never `"completed"` and a set
timeout `T ≥ 1`, `get(task_id, timeout=T)` polls on the fixed `0.5` time
unit interval: it performs exactly `2·T` sleeps of `0.5` — so it fails only
once the cumulative elapsed time has reached `T`, never earlier — and then
terminates by raising the timeout error carrying the last observed status
(the `2·T + 1`-st status read).  The loop thus performs finitely many,
namely `T / 0.5`, iterations.  A set negative timeout sleeps once and then
times out on its first countdown check. -/
theorem get_timeout_polls_until_timeout (obs : Nat → Store) (t : String)
    (sf : Nat → String)
    (hst : ∀ i, ResultTaskManager.status (obs i) t = .ok (sf i))
    (hnc : ∀ i, sf i ≠ "completed") :
    (∀ T : Nat, 1 ≤ T →
      ResultTaskManager.get obs t (some (T : Int)) =
        ⟨.error (.timeout (sf (2 * T))), 2 * T + 1, 2 * T⟩) ∧
    (∀ T : Int, T ≤ -1 →
      ResultTaskManager.get obs t (some T) =
        ⟨.error (.timeout (sf 1)), 2, 1⟩) := by
  constructor
  · intro T hT
    have htr : ResultTaskManager.timeoutTruthy (some (T : Int)) = true := by
      simp [ResultTaskManager.timeoutTruthy]
      omega
    unfold ResultTaskManager.get
    rw [htr, if_pos rfl]
    have hcast : 2 * (some (T : Int)).getD 0 = ((2 * T : Nat) : Int) := by
      simp only [Option.getD_some]
      push_cast
      ring
    rw [hcast,
      getLoop_never_completed obs t sf hst hnc (2 * T) (by omega) 0 0]
    norm_num
  · intro T hT
    have htr : ResultTaskManager.timeoutTruthy (some T) = true := by
      simp [ResultTaskManager.timeoutTruthy]
      omega
    unfold ResultTaskManager.get
    rw [htr, if_pos rfl]
    rw [ResultTaskManager.getLoop.eq_def, hst 0]
    simp only [if_neg (hnc 0)]
    have hcond : 2 * (some T).getD 0 - 1 ≤ 0 := by
      simp only [Option.getD_some]
      omega
    rw [if_pos hcond, hst 1]

/-- Witness for C3 at concrete inputs: with status stuck at `"started"` and
`timeout=1`, `get` sleeps twice (one second) and raises the timeout error
carrying `"started"`. -/
theorem get_timeout_polls_until_timeout_witness :
    ResultTaskManager.get (fun _ => startedTaskStore) "t1" (some 1) =
      ⟨.error (.timeout "started"), 3, 2⟩ := by
  have hst : ∀ i : Nat, ResultTaskManager.status
      ((fun _ : Nat => startedTaskStore) i) "t1" = .ok "started" :=
    fun _ => rfl
  have hnc : ∀ _i : Nat, "started" ≠ "completed" := fun _ => by decide
  have h := (get_timeout_polls_until_timeout (fun _ => startedTaskStore)
    "t1" (fun _ => "started") hst hnc).1 1 (by decide)
  simpa using h

/-- Counterexample to C10 as frozen: on a task whose status is `"started"`,
`get(task_id, timeout=0)` performs two backend reads of the status field —
the deciding check and the re-read used to build the exception message —
not a single status check. -/
theorem get_timeout_zero_single_check_counterexample :
    (ResultTaskManager.get (fun _ => startedTaskStore) "t1"
        (some 0)).reads = 2 ∧
    (ResultTaskManager.get (fun _ => startedTaskStore) "t1"
        (some 0)).reads ≠ 1 :=
  ⟨rfl, by decide⟩

/-- C10 (amended): `timeout=0` is falsy in Python, so `get(task_id,
timeout=0)` takes exactly the same branch as `get` with `timeout` unset:
it fails immediately with the not-ready error — performing the deciding
status check plus the error-message re-read, two status checks as in the
unset case — and never enters the polling loop: no sleep, no timeout
error. -/
theorem get_timeout_zero_acts_as_unset (obs : Nat → Store)
    (t s0 s1 : String) :
    ResultTaskManager.get obs t (some 0) =
      ResultTaskManager.get obs t Option.none ∧
    (ResultTaskManager.status (obs 0) t = .ok s0 → s0 ≠ "completed" →
      ResultTaskManager.status (obs 1) t = .ok s1 →
      ResultTaskManager.get obs t (some 0) =
        ⟨.error (.notReady s1), 2, 0⟩) := by
  refine ⟨rfl, fun h0 hne h1 => ?_⟩
  exact getNoTimeout_not_completed obs t s0 s1 h0 hne h1

/-- Witness for C10 at concrete inputs: on the not-completed task,
`get("t1", timeout=0)` raises the not-ready error with no sleep. -/
theorem get_timeout_zero_acts_as_unset_witness :
    ResultTaskManager.get (fun _ => startedTaskStore) "t1" (some 0) =
      ⟨.error (.notReady "started"), 2, 0⟩ :=
  (get_timeout_zero_acts_as_unset (fun _ => startedTaskStore) "t1"
    "started" "started").2 rfl (by decide) rfl

end Retsu
